import Mathlib

/-!
Verification of the Mandrake analysis-agent core: the conversation state
machine in `backend/biomni/agent/a1.py` (generate / execute / self-critique
nodes, tag parsing, output-size policy, message classification) and the
streaming orchestrator in `backend/server/biomni_a1_orchestrator.py`
(chunk parsing, pending-tool-call timeout handling).

Message and chunk contents are modelled as `List Char` (Python `str` is a
sequence of characters).  Wall-clock timestamps carried inside event
dictionaries are omitted; times that take part in control flow (the
pending-tool-call dispatch times) are modelled explicitly as naturals.
-/

set_option maxHeartbeats 1000000
set_option maxRecDepth 4000

namespace Mandrake

/-- Character list of a string literal. -/
def chars (s : String) : List Char := s.data

/-- Python `\s` / `str.strip` whitespace characters. -/
def isPySpace (c : Char) : Bool :=
  c == ' ' || c == '\t' || c == '\n' || c == '\r' ||
  c == Char.ofNat 11 || c == Char.ofNat 12

/-- Python `str.strip()`. -/
def pyStrip (xs : List Char) : List Char :=
  ((xs.dropWhile isPySpace).reverse.dropWhile isPySpace).reverse

/-- Python `str.lower()` (ASCII is all the source ever compares). -/
def lowerChars (xs : List Char) : List Char := xs.map Char.toLower

/-- Index of the first occurrence of `pat` as a contiguous sublist
(Python `str.find` / the start of a regex literal match). -/
def findSub (pat : List Char) : List Char → Option Nat
  | [] => if pat.isEmpty then some 0 else none
  | c :: cs =>
    if pat.isPrefixOf (c :: cs) then some 0
    else (findSub pat cs).map (· + 1)

/-- Python's substring test `pat in xs`. -/
def occurs (pat xs : List Char) : Bool := (findSub pat xs).isSome

/-- First match of the regex `op(.*?)cl` (with `re.DOTALL`):
start index of `op`, captured content, and the index just past `cl`.
The lazy group takes the earliest closing tag after the first opening tag. -/
def matchSpan (op cl msg : List Char) : Option (Nat × List Char × Nat) :=
  match findSub op msg with
  | none => none
  | some i =>
    let rest := msg.drop (i + op.length)
    match findSub cl rest with
    | none => none
    | some j => some (i, rest.take j, i + op.length + j + cl.length)

/-- Captured group of the first `op(.*?)cl` match (`re.search(...).group(1)`). -/
def matchTag (op cl msg : List Char) : Option (List Char) :=
  (matchSpan op cl msg).map (fun t => t.2.1)

/-! ### Substring lemmas -/

theorem findSub_nil_pat (l : List Char) : findSub [] l = some 0 := by
  cases l <;> simp [findSub, List.isPrefixOf]

theorem findSub_cons (pat : List Char) (c : Char) (l : List Char) :
    findSub pat (c :: l) =
      if pat.isPrefixOf (c :: l) then some 0 else (findSub pat l).map (· + 1) := rfl

theorem occurs_cons (pat : List Char) (c : Char) (l : List Char) :
    occurs pat (c :: l) = (pat.isPrefixOf (c :: l) || occurs pat l) := by
  rw [occurs, findSub_cons]
  by_cases h : pat.isPrefixOf (c :: l) = true
  · simp [h]
  · simp [h, occurs]

theorem occurs_of_isPrefixOf {pat xs : List Char} (h : pat.isPrefixOf xs = true) :
    occurs pat xs = true := by
  cases xs with
  | nil =>
    have hp : pat = [] := by
      have hl := (List.isPrefixOf_iff_prefix.mp h).length_le
      exact List.length_eq_zero.mp (Nat.le_zero.mp (by simpa using hl))
    rw [hp, occurs, findSub_nil_pat]
    rfl
  | cons c cs => rw [occurs_cons, h, Bool.true_or]

theorem occurs_append_right (pat ys : List Char) (h : occurs pat ys = true) :
    ∀ xs, occurs pat (xs ++ ys) = true := by
  intro xs
  induction xs with
  | nil => simpa using h
  | cons c cs ih => rw [List.cons_append, occurs_cons, ih, Bool.or_true]

theorem occurs_self (pat : List Char) : occurs pat pat = true := by
  cases pat with
  | nil => simp [occurs, findSub_nil_pat]
  | cons c cs =>
    exact occurs_of_isPrefixOf (List.isPrefixOf_iff_prefix.mpr (List.prefix_refl _))

theorem occurs_close_append (pat xs ys : List Char) :
    occurs pat (xs ++ (pat ++ ys)) = true :=
  occurs_append_right pat _ (occurs_of_isPrefixOf
    (List.isPrefixOf_iff_prefix.mpr (List.prefix_append _ _))) xs

theorem findSub_some_drop {pat xs : List Char} {i : Nat}
    (h : findSub pat xs = some i) : pat <+: xs.drop i := by
  induction xs generalizing i with
  | nil =>
    unfold findSub at h
    by_cases hp : pat.isEmpty
    · simp [hp] at h
      subst h
      simp [List.isEmpty_iff.mp hp]
    · simp [hp] at h
  | cons c cs ih =>
    unfold findSub at h
    by_cases hp : pat.isPrefixOf (c :: cs)
    · simp [hp] at h
      subst h
      simpa using List.isPrefixOf_iff_prefix.mp hp
    · simp [hp] at h
      obtain ⟨j, hj, rfl⟩ := h
      simpa using ih hj

theorem occurs_length_le {pat xs : List Char} (h : occurs pat xs = true) :
    pat.length ≤ xs.length := by
  unfold occurs at h
  obtain ⟨i, hi⟩ := Option.isSome_iff_exists.mp h
  have := (findSub_some_drop hi).length_le
  calc pat.length ≤ (xs.drop i).length := this
    _ ≤ xs.length := by simp

theorem prefix_of_prefix_append_of_le {pat xs ys : List Char}
    (h : pat <+: xs ++ ys) (hl : pat.length ≤ xs.length) : pat <+: xs := by
  rw [List.prefix_iff_eq_take] at h
  rw [List.take_append_eq_append_take, Nat.sub_eq_zero_of_le hl,
    List.take_zero, List.append_nil] at h
  rw [h]
  exact List.take_prefix _ _

theorem isPrefixOf_append_eq {pat xs ys : List Char} (hl : pat.length ≤ xs.length) :
    pat.isPrefixOf (xs ++ ys) = pat.isPrefixOf xs := by
  by_cases h : pat.isPrefixOf xs
  · rw [h]
    exact List.isPrefixOf_iff_prefix.mpr
      ((List.isPrefixOf_iff_prefix.mp h).trans (List.prefix_append _ _))
  · rw [Bool.eq_false_iff.mpr h, Bool.eq_false_iff]
    intro hc
    exact h (List.isPrefixOf_iff_prefix.mpr
      (prefix_of_prefix_append_of_le (List.isPrefixOf_iff_prefix.mp hc) hl))

theorem findSub_append_of_occurs {pat xs : List Char} (h : occurs pat xs = true)
    (ys : List Char) : findSub pat (xs ++ ys) = findSub pat xs := by
  induction xs with
  | nil =>
    have hp : pat = [] := by
      have := occurs_length_le h
      exact List.length_eq_zero.mp (Nat.le_zero.mp (by simpa using this))
    subst hp
    simp [findSub_nil_pat]
  | cons c cs ih =>
    rw [occurs_cons] at h
    by_cases hp : pat.isPrefixOf (c :: cs) = true
    · have hl : pat.length ≤ (c :: cs).length :=
        (List.isPrefixOf_iff_prefix.mp hp).length_le
      have hp' : pat.isPrefixOf (c :: (cs ++ ys)) = true := by
        have heq := @isPrefixOf_append_eq pat (c :: cs) ys hl
        simp only [List.cons_append] at heq
        rw [heq, hp]
      show findSub pat (c :: (cs ++ ys)) = _
      rw [findSub_cons, findSub_cons, if_pos hp', if_pos hp]
    · have hpf : pat.isPrefixOf (c :: cs) = false := Bool.eq_false_iff.mpr hp
      have hcs : occurs pat cs = true := by
        rw [hpf, Bool.false_or] at h
        exact h
      have hl : pat.length ≤ (c :: cs).length :=
        le_trans (occurs_length_le hcs) (by simp)
      have hp' : pat.isPrefixOf (c :: (cs ++ ys)) = false := by
        have heq := @isPrefixOf_append_eq pat (c :: cs) ys hl
        simp only [List.cons_append] at heq
        rw [heq, hpf]
      show findSub pat (c :: (cs ++ ys)) = _
      rw [findSub_cons, findSub_cons, if_neg (by simp [hp']),
        if_neg (by simp [hpf]), ih hcs]

theorem occurs_append_left {pat xs : List Char} (h : occurs pat xs = true)
    (ys : List Char) : occurs pat (xs ++ ys) = true := by
  unfold occurs
  rw [findSub_append_of_occurs h]
  exact h

/-- Appending a tail `cl` that neither contains `pat` nor completes a
straddling occurrence of `pat` does not change substring presence. -/
theorem occurs_append_stable (pat cl : List Char)
    (hcl : occurs pat cl = false)
    (hstr : ∀ j, j < pat.length → 0 < j → (pat.drop j).isPrefixOf cl = false) :
    ∀ xs, occurs pat (xs ++ cl) = occurs pat xs := by
  intro xs
  induction xs with
  | nil =>
    have hne : pat ≠ [] := by
      intro hp
      rw [hp, occurs, findSub_nil_pat] at hcl
      simp at hcl
    simp only [List.nil_append, hcl]
    cases pat with
    | nil => exact absurd rfl hne
    | cons p ps => simp [occurs, findSub]
  | cons c cs ih =>
    show occurs pat (c :: (cs ++ cl)) = _
    rw [occurs_cons, occurs_cons, ih]
    congr 1
    by_cases hp : pat.isPrefixOf (c :: cs) = true
    · rw [hp]
      show pat.isPrefixOf ((c :: cs) ++ cl) = true
      exact List.isPrefixOf_iff_prefix.mpr
        ((List.isPrefixOf_iff_prefix.mp hp).trans (List.prefix_append _ _))
    · have hpf : pat.isPrefixOf (c :: cs) = false := Bool.eq_false_iff.mpr hp
      rw [hpf]
      rw [Bool.eq_false_iff]
      intro hc
      have hpre : pat <+: (c :: cs) ++ cl := List.isPrefixOf_iff_prefix.mp hc
      by_cases hl : pat.length ≤ (c :: cs).length
      · exact hp (List.isPrefixOf_iff_prefix.mpr
          (prefix_of_prefix_append_of_le hpre hl))
      · push_neg at hl
        have htake : pat = (c :: cs) ++ List.take (pat.length - (c :: cs).length) cl := by
          have h2 := List.prefix_iff_eq_take.mp hpre
          rw [List.take_append_eq_append_take,
            List.take_of_length_le (by simpa using Nat.le_of_lt hl)] at h2
          exact h2
        have hdrop : pat.drop (c :: cs).length
            = List.take (pat.length - (c :: cs).length) cl := by
          conv_lhs => rw [htake]
          rw [List.drop_left]
        have hpp : (pat.drop (c :: cs).length).isPrefixOf cl = true := by
          rw [hdrop]
          exact List.isPrefixOf_iff_prefix.mpr (List.take_prefix _ _)
        have hfalse := hstr (c :: cs).length (by omega) (by simp)
        rw [hfalse] at hpp
        exact absurd hpp (by simp)

/-! ### Conversation controller (`biomni/agent/a1.py`, `generate` node) -/

/-- Message roles (`HumanMessage` / `AIMessage` / `SystemMessage`). -/
inductive Role
  | user
  | ai
  | system
  deriving DecidableEq, Repr

/-- One conversation turn. -/
structure Msg where
  role : Role
  content : List Char
  deriving DecidableEq, Repr

def openE : List Char := chars "<execute>"
def closeE : List Char := chars "</execute>"
def openS : List Char := chars "<solution>"
def closeS : List Char := chars "</solution>"
def openT : List Char := chars "<think>"
def closeT : List Char := chars "</think>"
def openObs : List Char := chars "<observation>"
def closeObs : List Char := chars "</observation>"

/-- `generate`'s incomplete-tag repair, first step: close an unterminated
`<execute>`. -/
def fixTag1 (msg : List Char) : List Char :=
  if occurs openE msg && !occurs closeE msg then msg ++ closeE else msg

/-- Second step: close an unterminated `<solution>`. -/
def fixTag2 (m1 : List Char) : List Char :=
  if occurs openS m1 && !occurs closeS m1 then m1 ++ closeS else m1

/-- Third step: close an unterminated `<think>`. -/
def fixTag3 (m2 : List Char) : List Char :=
  if occurs openT m2 && !occurs closeT m2 then m2 ++ closeT else m2

/-- `generate`'s incomplete-tag repair: a closing tag is appended for each
unterminated opening tag, in the order execute, solution, think. -/
def fixTags (msg : List Char) : List Char := fixTag3 (fixTag2 (fixTag1 msg))

/-- `state["next_step"]` values (`"end"` is a Lean keyword, hence `endState`). -/
inductive NextStep
  | execute
  | generate
  | endState
  deriving DecidableEq, Repr

/-- Result of one `generate` routing step: the updated message list and
the routing decision. -/
structure GenOut where
  messages : List Msg
  next : NextStep
  deriving DecidableEq, Repr

/-- The corrective instruction injected on a parse error (a `HumanMessage`). -/
def correctiveText : List Char :=
  chars "Each response must include thinking process followed by either <execute> or <solution> tag. But there are no tags in the current response. Please follow the instruction, fix and regenerate the response again."

/-- The terminal message appended when repeated parse errors are detected. -/
def terminationText : List Char :=
  chars "Execution terminated due to repeated parsing errors. Please check your input and try again."

/-- The phrase the parse-error counter scans `AIMessage`s for
(note the capital T, unlike the injected corrective text). -/
def noTagsMarker : List Char := chars "There are no tags"

/-- The post-LLM half of the `generate` node: repair incomplete tags, run the
three tag regexes, append the reply, and route; on a reply with no tag,
count `AIMessage`s containing `noTagsMarker` and either inject the corrective
instruction or terminate. -/
def generateRoute (messages : List Msg) (respContent : List Char) : GenOut :=
  let msg := fixTags respContent
  let thinkMatch := matchTag openT closeT msg
  let execMatch := matchTag openE closeE msg
  let answerMatch := matchTag openS closeS msg
  let messages := messages ++ [⟨Role.ai, pyStrip msg⟩]
  if answerMatch.isSome then ⟨messages, NextStep.endState⟩
  else if execMatch.isSome then ⟨messages, NextStep.execute⟩
  else if thinkMatch.isSome then ⟨messages, NextStep.generate⟩
  else
    let errorCount :=
      (messages.filter (fun m => m.role == Role.ai && occurs noTagsMarker m.content)).length
    if errorCount ≥ 2 then
      ⟨messages ++ [⟨Role.ai, terminationText⟩], NextStep.endState⟩
    else
      ⟨messages ++ [⟨Role.user, correctiveText⟩], NextStep.generate⟩

/-! #### LLM-failure recovery in `generate` -/

/-- Outcome of one `self.llm.invoke` call: a reply text, or the text of the
raised exception (a null/None reply is raised as
`ValueError("Received null response from LLM")` and so is also an `err`). -/
inductive LLMResult
  | ok (content : List Char)
  | err (emsg : List Char)
  deriving DecidableEq, Repr

/-- The recoverable-error patterns tested against the lowercased error text. -/
def recoverablePatterns : List (List Char) :=
  [chars "null value for choices", chars "context", chars "token",
   chars "content filter", chars "rate limit"]

def recoverable (emsg : List Char) : Bool :=
  recoverablePatterns.any (fun p => occurs p (lowerChars emsg))

/-- Does the second failure look like an API-key/endpoint problem? -/
def authErr (emsg : List Char) : Bool :=
  occurs (chars "api key") (lowerChars emsg) || occurs (chars "endpoint") (lowerChars emsg)

/-- Synthesized reply when the retry fails with an auth/endpoint error. -/
def authSolutionText : List Char :=
  chars "<solution>Error: API authentication or endpoint configuration issue. Please check your Azure OpenAI API key and endpoint settings in the .env file.</solution>"

/-- Synthesized reply when the retry fails for any other reason. -/
def ctxSolutionText : List Char :=
  chars "<solution>Error: The context was too long for the model to process. The task output exceeded the maximum context window. Please try breaking down the task into smaller steps or working with smaller data samples.</solution>"

/-- Is `m` the message the recovery loop truncates: an `AIMessage` containing
`<observation>` whose extracted observation exceeds 2000 characters? -/
def shouldTrunc (m : Msg) : Bool :=
  m.role == Role.ai && occurs openObs m.content &&
    match matchTag openObs closeObs m.content with
    | some obs => decide (obs.length > 2000)
    | none => false

/-- The truncated replacement message built by the recovery loop. -/
def truncMsg (m : Msg) : Msg :=
  match matchTag openObs closeObs m.content with
  | some obs =>
    ⟨Role.ai,
      openObs ++ chars "[TRUNCATED DUE TO CONTEXT OVERFLOW - Original: "
        ++ chars (Nat.repr obs.length) ++ chars " chars]" ++ [Char.ofNat 10]
        ++ obs.take 2000 ++ [Char.ofNat 10] ++ chars "[...truncated...]" ++ closeObs⟩
  | none => m

/-- Scan the message list from the end and truncate the first message (from
the end) satisfying `shouldTrunc`; `none` when no message qualifies. -/
def truncFromEnd : List Msg → Option (List Msg)
  | [] => none
  | m :: ms =>
    match truncFromEnd ms with
    | some ms' => some (m :: ms')
    | none => if shouldTrunc m then some (truncMsg m :: ms) else none

/-- The whole truncation pass of the recovery path (a no-op when no
observation message exceeds the bound). -/
def truncateLastObs (msgs : List Msg) : List Msg :=
  match truncFromEnd msgs with
  | some r => r
  | none => msgs

/-- The full `generate` node: the first LLM call either succeeds, fails
recoverably (truncate one observation, retry exactly once, synthesize a
`<solution>` reply if the retry fails too), or fails fatally (re-raised,
modelled as `Except.error`). -/
instance : DecidableEq (Except (List Char) GenOut) := fun a b =>
  match a, b with
  | .ok x, .ok y =>
    if h : x = y then isTrue (by rw [h]) else isFalse (by simp [h])
  | .error x, .error y =>
    if h : x = y then isTrue (by rw [h]) else isFalse (by simp [h])
  | .ok _, .error _ => isFalse (by simp)
  | .error _, .ok _ => isFalse (by simp)

def generateNode (msgs : List Msg) (first retry : LLMResult) :
    Except (List Char) GenOut :=
  match first with
  | .ok c => .ok (generateRoute msgs c)
  | .err e =>
    if recoverable e then
      let msgs' := truncateLastObs msgs
      match retry with
      | .ok c => .ok (generateRoute msgs' c)
      | .err e2 =>
        .ok (generateRoute msgs' (if authErr e2 then authSolutionText else ctxSolutionText))
    else .error e

/-! ### Action executor (`a1.py`, `execute` node) -/

def MAX_OUTPUT_LENGTH : Nat := 10000
def SUMMARY_THRESHOLD : Nat := 5000

def natChars (n : Nat) : List Char := chars (Nat.repr n)

def nlChar : Char := Char.ofNat 10

/-- `"\n".join parts` -/
def joinNL (parts : List (List Char)) : List Char := List.intercalate [nlChar] parts

/-- Number of lines of `result` that start with `'>'`
(`sum(1 for line in lines if line.startswith('>'))`). -/
def seqCount (result : List Char) : Nat :=
  ((result.splitOn nlChar).filter (fun l => ['>'].isPrefixOf l)).length

/-- Does the first kilobyte look like FASTA (`">" in result[:1000]`)? -/
def fastaLike (result : List Char) : Bool := occurs ['>'] (result.take 1000)

/-- The `"=" * 50` separator line. -/
def eqLine : List Char := List.replicate 50 '='

/-- Header lines prepended to a hard-truncated result. -/
def truncHeader (result : List Char) : List Char :=
  if fastaLike result then
    joinNL
      [chars "[OUTPUT TRUNCATED: " ++ natChars result.length ++ chars " total characters]",
       chars "[Contains " ++ natChars (seqCount result) ++ chars " sequences/entries]",
       chars "[Showing first 10K characters below]",
       eqLine]
  else
    joinNL
      [chars "[OUTPUT TRUNCATED: " ++ natChars result.length ++ chars " total characters]",
       chars "[First 10K characters shown below]",
       eqLine]

/-- The output-size policy of the `execute` node: hard-truncate over
10000 characters (with a size header, and an entry count for FASTA-like
output), annotate over 5000, pass through otherwise. -/
def formatOutput (result : List Char) : List Char :=
  if result.length > MAX_OUTPUT_LENGTH then
    let truncated := result.take MAX_OUTPUT_LENGTH
    if fastaLike result then
      joinNL
        [chars "[OUTPUT TRUNCATED: " ++ natChars result.length ++ chars " total characters]",
         chars "[Contains " ++ natChars (seqCount result) ++ chars " sequences/entries]",
         chars "[Showing first 10K characters below]",
         eqLine,
         truncated]
    else
      joinNL
        [chars "[OUTPUT TRUNCATED: " ++ natChars result.length ++ chars " total characters]",
         chars "[First 10K characters shown below]",
         eqLine,
         truncated]
  else if result.length > SUMMARY_THRESHOLD then
    chars "[Output length: " ++ natChars result.length ++ chars " characters]" ++ [nlChar] ++ result
  else result

/-- The `execute` node's own incomplete-tag repair plus code extraction
(applied to the last message's content). -/
def execParse (lastMessage : List Char) : Option (List Char) :=
  let m :=
    if occurs openE lastMessage && !occurs closeE lastMessage
    then lastMessage ++ closeE else lastMessage
  matchTag openE closeE m

/-- The `execute` node as a message-list transition.  `runResult` is the raw
text returned by the selected backend (`run_python_repl` / `run_r_code` /
`run_bash_script` under `run_with_timeout`); the node size-formats it, wraps
it in `<observation>` tags and appends it.  When no execute block parses,
nothing is appended. -/
def executeStep (msgs : List Msg) (runResult : List Char) : List Msg :=
  match msgs.getLast? with
  | none => msgs
  | some last =>
    match execParse last.content with
    | none => msgs
    | some _ =>
      msgs ++ [⟨Role.ai,
        pyStrip ([nlChar] ++ openObs ++ formatOutput runResult ++ closeObs)⟩]

/-! ### Self-critique node (`a1.py`, `execute_self_critic`) -/

/-- `execute_self_critic`: below the round budget, append the critique as a
corrective `HumanMessage` and go back to `generate`; otherwise `end`. -/
def selfCriticStep (criticCount roundBudget : Nat) (msgs : List Msg)
    (feedback : List Char) : GenOut × Nat :=
  if criticCount < roundBudget then
    (⟨msgs ++ [⟨Role.user,
        chars "Wait... this is not enough to solve the task. Here are some feedbacks for improvement:"
          ++ [nlChar] ++ feedback⟩], NextStep.generate⟩,
     criticCount + 1)
  else (⟨msgs, NextStep.endState⟩, criticCount)

/-! ### Event classifier (`a1.py`, `_classify_message` / `_classify_message_multi`)

The source file stores the checklist markers as the mojibake character
sequences `[‚úì]` and `[‚úó]` (a double-encoded check mark / cross mark);
the embedding reproduces those byte-for-byte.  The wall-clock `timestamp`
dict entry is omitted. -/

/-- One parsed checklist item (`{"step": ..., "status": ...}`). -/
structure PlanStep where
  step : List Char
  status : List Char
  deriving DecidableEq, Repr

/-- One classified event dict; absent dict keys are modelled by defaults. -/
structure AEvent where
  etype : List Char
  content : List Char
  fullMessage : List Char
  subtype : List Char := []
  planSteps : List PlanStep := []
  deriving DecidableEq, Repr

def markPending : List Char := chars "[ ]"
def markCompleted : List Char := ['[', '‚', 'ú', 'ì', ']']
def markFailed : List Char := ['[', '‚', 'ú', 'ó', ']']

def hasChecklistMarker (s : List Char) : Bool :=
  occurs markPending s || occurs markCompleted s || occurs markFailed s

def openObserve : List Char := chars "<observe>"
def closeObserve : List Char := chars "</observe>"

/-- `content[:content.index(pat)]` when `pat` occurs, else the whole text. -/
def takeToTag (pat content : List Char) : List Char :=
  match findSub pat content with
  | some i => content.take i
  | none => content

/-- The planning span: everything before `<execute>` when present. -/
def planningSpanOf (content : List Char) : List Char :=
  if occurs openE content then takeToTag openE content else content

/-- Match of `^\d+\.\s*\[.\]\s*` against a line; returns the line with the
matched prefix removed (the `re.sub` result used as the step text). -/
def planLineRest (line : List Char) : Option (List Char) :=
  let ds := line.takeWhile Char.isDigit
  if ds.isEmpty then none
  else
    match line.drop ds.length with
    | '.' :: r1 =>
      match r1.dropWhile isPySpace with
      | '[' :: _ :: ']' :: r2 => some (r2.dropWhile isPySpace)
      | _ => none
    | _ => none

/-- Status of a matched checklist line. -/
def planLineStatus (line : List Char) : List Char :=
  if occurs markCompleted line then chars "completed"
  else if occurs markFailed line then chars "failed"
  else chars "pending"

/-- All plan steps parsed from the planning span. -/
def planStepsOf (planningContent : List Char) : List PlanStep :=
  (planningContent.splitOn nlChar).filterMap (fun line =>
    (planLineRest line).map (fun rest => ⟨rest, planLineStatus line⟩))

/-- The loop computing `text_before_tags`: the first tag found in the fixed
iteration order `<execute>`, `<solution>`, `<observe>`, `<think>` (not the
earliest tag in the text) cuts the message. -/
def textBeforeTags (content : List Char) : List Char :=
  if occurs openE content then takeToTag openE content
  else if occurs openS content then takeToTag openS content
  else if occurs openObserve content then takeToTag openObserve content
  else if occurs openT content then takeToTag openT content
  else content

/-- Code-language detection for a `tool_call` event. -/
def codeTypeOf (code : List Char) : List Char :=
  if (chars "#!R").isPrefixOf (pyStrip code) then chars "r"
  else if (chars "#!BASH").isPrefixOf (pyStrip code) then chars "bash"
  else chars "python"

def planningEventsOf (content : List Char) : List AEvent :=
  if hasChecklistMarker content then
    let pc := planningSpanOf content
    let steps := planStepsOf pc
    if steps.isEmpty then []
    else [{ etype := chars "planning", content := pc, fullMessage := content,
            planSteps := steps }]
  else []

def reasoningEventsOf (content : List Char) : List AEvent :=
  let tbt := textBeforeTags content
  if (pyStrip tbt).isEmpty then []
  else if hasChecklistMarker tbt then []
  else if (pyStrip tbt).length > 50 then
    [{ etype := chars "reasoning", content := pyStrip tbt, fullMessage := content }]
  else []

def execEventsOf (content : List Char) : List AEvent :=
  if occurs openE content then
    match matchTag openE closeE content with
    | some code =>
      [{ etype := chars "tool_call", subtype := codeTypeOf code, content := code,
         fullMessage := content }]
    | none => []
  else []

def observeEventsOf (content : List Char) : List AEvent :=
  if occurs openObserve content then
    match matchTag openObserve closeObserve content with
    | some o => [{ etype := chars "tool_output", content := o, fullMessage := content }]
    | none => []
  else []

def solutionEventsOf (content : List Char) : List AEvent :=
  if occurs openS content then
    match matchTag openS closeS content with
    | some s => [{ etype := chars "final_result", content := s, fullMessage := content }]
    | none => []
  else []

def thinkEventsOf (content : List Char) : List AEvent :=
  if occurs openT content then
    match matchTag openT closeT content with
    | some t => [{ etype := chars "thinking", content := t, fullMessage := content }]
    | none => []
  else []

/-- The event accumulation of `_classify_message_multi` before its
no-events fallback. -/
def classifyCore (content : List Char) : List AEvent :=
  planningEventsOf content ++ reasoningEventsOf content ++ execEventsOf content
    ++ observeEventsOf content ++ solutionEventsOf content ++ thinkEventsOf content

/-- `_classify_message_multi`. -/
def classifyMulti (content : List Char) : List AEvent :=
  let events := classifyCore content
  if events.isEmpty then
    [{ etype := chars "reasoning", content := content, fullMessage := content }]
  else events

/-- `_classify_message`: first event of the multi classification, with a
defensive reasoning fallback for an empty list. -/
def classifyMessage (content : List Char) : AEvent :=
  match classifyMulti content with
  | [] => { etype := chars "reasoning", content := content, fullMessage := content }
  | e :: _ => e

/-! ### Streaming orchestrator (`biomni_a1_orchestrator.py`)

`EventOrchestrator.parse_chunk_with_llm` is a pure function of the chunk
text; generated `tool_id`s and `timestamp`s come from the wall clock and are
omitted from the event model.  The recursion on sub-spans is expressed with
a fuel argument; every recursive call in the source receives a strictly
shorter text, so `parseChunk` supplies `length + 1` fuel, which is never
exhausted. -/

/-- One orchestrator event dict; absent keys are modelled by defaults
(`highPriority` is `"priority" == "HIGH"`). -/
structure OEvent where
  etype : List Char
  content : List Char := []
  steps : List PlanStep := []
  toolCode : List Char := []
  highPriority : Bool := false
  deriving DecidableEq, Repr

def aiHeaderFull : List Char :=
  List.replicate 34 '=' ++ chars " Ai Message " ++ List.replicate 34 '='

def aiMsgPat : List Char := chars "Ai Message"
def humanMsgPat : List Char := chars "Human Message"

def apostrophe : Char := Char.ofNat 39

def protocolKeywords : List (List Char) :=
  [chars "step-by-step protocol:",
   chars "experimental protocol:",
   chars "cloning protocol:",
   chars "final protocol:",
   chars "here is the complete protocol",
   chars "here" ++ [apostrophe] ++ chars "s the step-by-step",
   chars "detailed experimental procedure:"]

def labKeywords : List (List Char) :=
  [chars "incubate", chars "ligate", chars "transform", chars "plate",
   chars "digest", chars "pcr", chars "amplif"]

def reasoningKeywords : List (List Char) :=
  [chars "thinking", chars "analyzing", chars "planning", chars "approach",
   chars "need to", chars "will", chars "should"]

def beforeCodeKeywords : List (List Char) :=
  [chars "thinking", chars "plan", chars "approach"]

/-- Case-insensitive any-keyword test (`re.search(r'(?i)(a|b|...)', s)` or
`any(p in s.lower() for p in ...)`). -/
def lowerHas (pats : List (List Char)) (s : List Char) : Bool :=
  pats.any (fun p => occurs p (lowerChars s))

/-- The `(.+?)(?:\.|$)` task group of the todo regexes: at least one
character, lazily extended until a literal `'.'` or the end of the line. -/
def todoTail (r : List Char) : Option (List Char) :=
  match r with
  | [] => none
  | c :: rest => some (c :: rest.takeWhile (fun d => d ≠ '.'))

/-- The `\[([^\]]*)\]\s*(.+?)(?:\.|$)` part shared by all three todo
patterns; `afterBracket` starts right after the opening `'['`. -/
def boxAndTask (afterBracket : List Char) : Option (List Char × List Char) :=
  let box := afterBracket.takeWhile (fun d => d ≠ ']')
  match afterBracket.drop box.length with
  | ']' :: r3 => (todoTail (r3.dropWhile isPySpace)).map (fun task => (box, task))
  | _ => none

/-- `^\s*\d+\.\s*\[...\]...` (the line is already stripped). -/
def todoP1 (line : List Char) : Option (List Char × List Char) :=
  let ds := line.takeWhile Char.isDigit
  if ds.isEmpty then none
  else
    match line.drop ds.length with
    | '.' :: r1 =>
      match r1.dropWhile isPySpace with
      | '[' :: r2 => boxAndTask r2
      | _ => none
    | _ => none

/-- `^\s*[-*+]\s*\[...\]...`. -/
def todoP2 (line : List Char) : Option (List Char × List Char) :=
  match line with
  | c :: r1 =>
    if c = '-' || c = '*' || c = '+' then
      match r1.dropWhile isPySpace with
      | '[' :: r2 => boxAndTask r2
      | _ => none
    else none
  | [] => none

/-- `^\s*\[...\]...`. -/
def todoP3 (line : List Char) : Option (List Char × List Char) :=
  match line with
  | '[' :: r2 => boxAndTask r2
  | _ => none

def completedBoxes : List (List Char) :=
  [['✓'], ['✔'], chars "x", chars "X", chars "done"]

def failedBoxes : List (List Char) :=
  [['✗'], ['✕'], ['✖'], chars "failed"]

def todoStatus (checkbox : List Char) : List Char :=
  if completedBoxes.contains checkbox then chars "completed"
  else if failedBoxes.contains checkbox then chars "failed"
  else chars "pending"

/-- One line of `extract_todos`: try the three patterns in order, then strip
the captured checkbox and task. -/
def todoOfLine (line0 : List Char) : Option PlanStep :=
  let line := pyStrip line0
  match (todoP1 line).orElse (fun _ => (todoP2 line).orElse (fun _ => todoP3 line)) with
  | none => none
  | some (box, taskRaw) => some ⟨pyStrip taskRaw, todoStatus (pyStrip box)⟩

/-- `EventOrchestrator.extract_todos`. -/
def extractTodos (content : List Char) : List PlanStep :=
  (content.splitOn nlChar).filterMap todoOfLine

/-- `EventOrchestrator.parse_chunk_with_llm`, fuel-indexed. -/
def parseChunkF : Nat → List Char → List OEvent
  | 0, _ => []
  | fuel + 1, chunk0 =>
    let chunk := pyStrip chunk0
    if chunk.isEmpty then []
    else
      -- Default: treat as message (unless it is a separator line).
      let dflt : List OEvent :=
        if chunk.head? ≠ some '=' then [{ etype := chars "message", content := chunk }]
        else []
      -- Priority 6: reasoning keyword patterns.
      let p6 : List OEvent :=
        if lowerHas reasoningKeywords chunk then
          [{ etype := chars "reasoning", content := chunk }]
        else dflt
      -- Priority 5: bare "Ai Message" / "Human Message" headers.
      let p5 : List OEvent :=
        if occurs aiMsgPat chunk then
          let lines := chunk.splitOn nlChar
          let content := if lines.length > 2 then joinNL (lines.drop 2) else []
          if (pyStrip content).isEmpty then []
          else
            [{ etype := chars "ai_message", content := content, highPriority := true }]
              ++ (let todos := extractTodos content
                  if todos.isEmpty then [] else [{ etype := chars "planning", steps := todos }])
              ++ (if occurs openE content then
                    (parseChunkF fuel content).filter (fun e => e.etype ≠ chars "message")
                  else [])
        else if occurs humanMsgPat chunk then
          let lines := chunk.splitOn nlChar
          let content := if lines.length > 2 then joinNL (lines.drop 2) else []
          if (pyStrip content).isEmpty then []
          else [{ etype := chars "human_message", content := content }]
        else p6
      -- Priority 4: explicit todo/planning patterns.
      let p4 : List OEvent :=
        let todos := extractTodos chunk
        if todos.isEmpty then p5 else [{ etype := chars "planning", steps := todos }]
      -- Final-protocol heuristics (no solution tag).
      let pProt : List OEvent :=
        if lowerHas protocolKeywords chunk then
          if chunk.length > 300 && lowerHas labKeywords chunk then
            [{ etype := chars "final_answer", content := chunk, highPriority := true }]
          else p4
        else p4
      -- Priority 3: solution blocks.
      let p3 : List OEvent :=
        if occurs openS chunk && occurs closeS chunk then
          match matchSpan openS closeS chunk with
          | some (_, sol, _) =>
            [{ etype := chars "final_answer", content := pyStrip sol, highPriority := true }]
          | none => pProt
        else pProt
      -- Priority 2: execute blocks (tool calls).
      let p2 : List OEvent :=
        if occurs openE chunk && occurs closeE chunk then
          match matchSpan openE closeE chunk with
          | some (s, code, e) =>
            let beforeCode := pyStrip (chunk.take s)
            (if beforeCode.isEmpty then []
             else
               let todos := extractTodos beforeCode
               if !todos.isEmpty then [{ etype := chars "planning", steps := todos }]
               else if lowerHas beforeCodeKeywords beforeCode then
                 [{ etype := chars "reasoning", content := beforeCode }]
               else [])
              ++ [{ etype := chars "tool_call", toolCode := pyStrip code, highPriority := true }]
              ++ (let after := pyStrip (chunk.drop e)
                  if after.isEmpty then [] else parseChunkF fuel after)
          | none => p3
        else p3
      -- Priority 1: observation blocks.
      let p1 : List OEvent :=
        if occurs openObs chunk && occurs closeObs chunk then
          match matchSpan openObs closeObs chunk with
          | some (s, obs, e) =>
            [{ etype := chars "observation", content := pyStrip obs, highPriority := true }]
              ++ (let before := pyStrip (chunk.take s)
                  if before.isEmpty then [] else parseChunkF fuel before)
              ++ (let after := pyStrip (chunk.drop e)
                  if after.isEmpty then [] else parseChunkF fuel after)
          | none => p2
        else p2
      -- Priority 0: the full "=== Ai Message ===" header.
      if occurs aiHeaderFull chunk then
        let lines := chunk.splitOn nlChar
        let contentStart :=
          match lines.findIdx? (fun l => occurs aiMsgPat l) with
          | some i => i + 1
          | none => 0
        let aiContent := pyStrip (joinNL (lines.drop contentStart))
        if aiContent.isEmpty then p1
        else
          (if occurs openObs aiContent && occurs closeObs aiContent then
            match matchSpan openObs closeObs aiContent with
            | some (s, obs, e) =>
              [{ etype := chars "observation", content := pyStrip obs, highPriority := true }]
                ++ (let before := pyStrip (aiContent.take s)
                    let after := pyStrip (aiContent.drop e)
                    if !before.isEmpty || !after.isEmpty then
                      let remaining := pyStrip (before ++ [nlChar] ++ after)
                      if remaining.isEmpty then []
                      else [{ etype := chars "ai_message", content := remaining }]
                    else [])
            | none => []
          else [{ etype := chars "ai_message", content := aiContent, highPriority := true }])
            ++ (if occurs openE aiContent then
                  (parseChunkF fuel aiContent).filter
                    (fun ev => ev.etype ≠ chars "ai_message" && ev.etype ≠ chars "observation")
                else [])
      else p1

/-- `parse_chunk_with_llm` with enough fuel for its sub-span recursion. -/
def parseChunk (chunk : List Char) : List OEvent :=
  parseChunkF (chunk.length + 1) chunk

/-! ### Pending tool calls (`SmartEventProcessor.check_pending_events`) -/

/-- `self.tool_timeout = 600.0` seconds. -/
def toolTimeout : Nat := 600

/-- The synthesized timeout observation dict (type, tool id, content). -/
structure TimeoutEvent where
  etype : List Char
  toolId : Nat
  content : List Char
  deriving DecidableEq, Repr

def timeoutContent : List Char :=
  ['⏱', '️', ' ']
    ++ chars "Tool execution timed out after 30 seconds. The operation is taking longer than expected. Continuing with alternative approach..."

def mkTimeoutEvent (tid : Nat) : TimeoutEvent :=
  { etype := chars "observation", toolId := tid, content := timeoutContent }

/-- The timed-out-tool-call scan of `check_pending_events`: pending records
older than the timeout each yield one synthesized observation event and are
deleted; the rest are kept.  (`pending_tool_calls` is a dict keyed by tool
id, modelled as an association list with distinct keys; iteration order is
insertion order.) -/
def checkPendingEvents (now : Nat) :
    List (Nat × Nat) → List TimeoutEvent × List (Nat × Nat)
  | [] => ([], [])
  | (tid, sent) :: rest =>
    let r := checkPendingEvents now rest
    if toolTimeout < now - sent then (mkTimeoutEvent tid :: r.1, r.2)
    else (r.1, (tid, sent) :: r.2)

/-! ## Theorems -/

/-! ### C1 — untagged replies and the parse-error bound -/

/-- First untagged model reply of the C1 scenario. -/
def untaggedReplyA : List Char := chars "Sorry, here is the analysis in plain text."

/-- Second untagged model reply of the C1 scenario. -/
def untaggedReplyB : List Char := chars "Again plain text without any tag at all."

/-- Two consecutive `generate` steps whose replies carry no recognized tag. -/
def c1Run : GenOut :=
  let s1 := generateRoute [⟨Role.user, chars "analyze the dataset"⟩] untaggedReplyA
  generateRoute s1.messages untaggedReplyB

/-- C1: the code does not do what the claim (and its own comments) say.
After exactly two untagged replies in a row the controller appends a second
corrective instruction and stays in `generate`; it neither transitions to
`end` nor appends the termination message.  The scan counts `AIMessage`s
containing the capitalized phrase `"There are no tags"`, but the corrective
message it injects is a `HumanMessage` whose text has the lowercase
`"there are no tags"`, so the counter never advances. -/
theorem c1_parse_error_bound_bug :
    c1Run.next = NextStep.generate
    ∧ c1Run.messages.length = 5
    ∧ (c1Run.messages.filter (fun m => m.content == terminationText)).length = 0
    ∧ (c1Run.messages.filter
        (fun m => m.role == Role.user && m.content == correctiveText)).length = 2 := by
  decide

/-! ### C2 — precedence between `<execute>` and `<solution>` -/

/-- A reply holding both a complete execute block and a complete solution
block. -/
def bothBlocksReply : List Char := chars "<execute>x</execute><solution>y</solution>"

/-- C2 (counterexample): on a reply with both blocks `generate` does not
route to `execute`. -/
theorem c2_counterexample :
    (generateRoute [] bothBlocksReply).next ≠ NextStep.execute := by decide

theorem generateRoute_end_of_solution (msgs : List Msg) (text : List Char)
    (hsol : (matchTag openS closeS (fixTags text)).isSome = true) :
    (generateRoute msgs text).next = NextStep.endState := by
  unfold generateRoute
  simp [hsol]

/-- C2 (amended): whenever a complete `<solution>` block is present in the
repaired reply, the `generate` step routes to `end` — the solution block is
preferred over any `<execute>` block. -/
theorem c2_solution_preferred (msgs : List Msg) (text : List Char)
    (hsol : (matchTag openS closeS (fixTags text)).isSome = true) :
    (generateRoute msgs text).next = NextStep.endState :=
  generateRoute_end_of_solution msgs text hsol

/-- C2 witness: the amended theorem applied to the two-block reply. -/
theorem c2_witness :
    (matchTag openS closeS (fixTags bothBlocksReply)).isSome = true
    ∧ (generateRoute [] bothBlocksReply).next = NextStep.endState :=
  ⟨by decide, c2_solution_preferred [] bothBlocksReply (by decide)⟩

/-! ### C10 — `_classify_message` refines `_classify_message_multi` -/

theorem classifyMulti_ne_nil (m : List Char) : classifyMulti m ≠ [] := by
  unfold classifyMulti
  by_cases h : (classifyCore m).isEmpty = true
  · simp [h]
  · simp only [h, if_false, Bool.false_eq_true]
    simpa using h

/-- C10: the multi classifier never returns an empty list, so
`_classify_message` always returns its first element and the empty-list
fallback branch is dead. -/
theorem c10_classify_head (m : List Char) :
    classifyMulti m ≠ []
    ∧ (classifyMulti m).head? = some (classifyMessage m) := by
  have hne : classifyMulti m ≠ [] := classifyMulti_ne_nil m
  refine ⟨hne, ?_⟩
  cases hcm : classifyMulti m with
  | nil => exact absurd hcm hne
  | cons e es => simp [classifyMessage, hcm]

/-! ### C6 — pending-tool-call timeout fires exactly once -/

theorem checkPending_cons (now tid sent : Nat) (rest : List (Nat × Nat)) :
    checkPendingEvents now ((tid, sent) :: rest) =
      if toolTimeout < now - sent then
        (mkTimeoutEvent tid :: (checkPendingEvents now rest).1,
         (checkPendingEvents now rest).2)
      else ((checkPendingEvents now rest).1,
        (tid, sent) :: (checkPendingEvents now rest).2) := by
  by_cases h : toolTimeout < now - sent <;> simp [checkPendingEvents, h]

theorem checkPending_emit_mem {now : Nat} :
    ∀ (qs : List (Nat × Nat)) {e : TimeoutEvent},
      e ∈ (checkPendingEvents now qs).1 → e.toolId ∈ qs.map Prod.fst := by
  intro qs
  induction qs with
  | nil => intro e h; simp [checkPendingEvents] at h
  | cons p rest ih =>
    intro e h
    obtain ⟨tid, sent⟩ := p
    rw [checkPending_cons] at h
    by_cases hc : toolTimeout < now - sent
    · rw [if_pos hc] at h
      rcases List.mem_cons.mp h with h1 | h2
      · subst h1; simp [mkTimeoutEvent]
      · exact List.mem_cons.mpr (Or.inr (ih h2))
    · rw [if_neg hc] at h
      exact List.mem_cons.mpr (Or.inr (ih h))

theorem checkPending_keep_mem {now : Nat} :
    ∀ (qs : List (Nat × Nat)) {p : Nat × Nat},
      p ∈ (checkPendingEvents now qs).2 → p ∈ qs := by
  intro qs
  induction qs with
  | nil => intro p h; simp [checkPendingEvents] at h
  | cons q rest ih =>
    intro p h
    obtain ⟨tid, sent⟩ := q
    rw [checkPending_cons] at h
    by_cases hc : toolTimeout < now - sent
    · rw [if_pos hc] at h
      exact List.mem_cons.mpr (Or.inr (ih h))
    · rw [if_neg hc] at h
      rcases List.mem_cons.mp h with h1 | h2
      · exact List.mem_cons.mpr (Or.inl h1)
      · exact List.mem_cons.mpr (Or.inr (ih h2))

theorem checkPending_emit_count (now tid t : Nat) :
    ∀ (qs : List (Nat × Nat)), (tid, t) ∈ qs → (qs.map Prod.fst).Nodup →
      toolTimeout < now - t →
      ((checkPendingEvents now qs).1.map TimeoutEvent.toolId).count tid = 1 := by
  intro qs
  induction qs with
  | nil => intro hmem _ _; cases hmem
  | cons p rest ih =>
    intro hmem hnodup htime
    obtain ⟨a, s⟩ := p
    have hhead : a ∉ rest.map Prod.fst := (List.nodup_cons.mp (by simpa using hnodup)).1
    have htail : (rest.map Prod.fst).Nodup := (List.nodup_cons.mp (by simpa using hnodup)).2
    rw [checkPending_cons]
    rcases List.mem_cons.mp hmem with heq | hrest
    · cases heq
      rw [if_pos htime]
      have h0 : ((checkPendingEvents now rest).1.map TimeoutEvent.toolId).count tid = 0 := by
        rw [List.count_eq_zero]
        intro hm
        obtain ⟨e, he, hei⟩ := List.mem_map.mp hm
        exact hhead (hei ▸ checkPending_emit_mem rest he)
      simp [mkTimeoutEvent, List.count_cons, h0]
    · have htid : tid ∈ rest.map Prod.fst := List.mem_map.mpr ⟨(tid, t), hrest, rfl⟩
      have hne : a ≠ tid := fun h => hhead (h ▸ htid)
      have ihv := ih hrest htail htime
      by_cases hc : toolTimeout < now - s
      · rw [if_pos hc]
        simpa [mkTimeoutEvent, List.count_cons, hne] using ihv
      · rw [if_neg hc]
        exact ihv

theorem checkPending_removed (now tid t : Nat) :
    ∀ (qs : List (Nat × Nat)), (tid, t) ∈ qs → (qs.map Prod.fst).Nodup →
      toolTimeout < now - t →
      tid ∉ (checkPendingEvents now qs).2.map Prod.fst := by
  intro qs
  induction qs with
  | nil => intro hmem _ _; cases hmem
  | cons p rest ih =>
    intro hmem hnodup htime
    obtain ⟨a, s⟩ := p
    have hhead : a ∉ rest.map Prod.fst := (List.nodup_cons.mp (by simpa using hnodup)).1
    have htail : (rest.map Prod.fst).Nodup := (List.nodup_cons.mp (by simpa using hnodup)).2
    rw [checkPending_cons]
    rcases List.mem_cons.mp hmem with heq | hrest
    · cases heq
      rw [if_pos htime]
      intro hm
      obtain ⟨q, hq, hqe⟩ := List.mem_map.mp hm
      exact hhead (hqe ▸ List.mem_map.mpr ⟨q, checkPending_keep_mem rest hq, rfl⟩)
    · have htid : tid ∈ rest.map Prod.fst := List.mem_map.mpr ⟨(tid, t), hrest, rfl⟩
      have hne : a ≠ tid := fun h => hhead (h ▸ htid)
      have ihv := ih hrest htail htime
      by_cases hc : toolTimeout < now - s
      · rw [if_pos hc]
        exact ihv
      · rw [if_neg hc]
        intro hm
        rcases List.mem_map.mp hm with ⟨q, hq, hqe⟩
        rcases List.mem_cons.mp hq with hq1 | hq2
        · exact hne (by rw [hq1] at hqe; simpa using hqe)
        · exact ihv (List.mem_map.mpr ⟨q, hq2, hqe⟩)

/-- C6: a pending tool call dispatched at `t` and still unmatched at a check
run strictly later than `t + 600` produces exactly one synthesized
observation event for its id and is removed, and any check over a state not
containing the id emits no event for it. -/
theorem c6_pending_timeout (now tid t : Nat) (ps : List (Nat × Nat))
    (hmem : (tid, t) ∈ ps) (hnodup : (ps.map Prod.fst).Nodup)
    (htime : t + toolTimeout < now) :
    ((checkPendingEvents now ps).1.map TimeoutEvent.toolId).count tid = 1
    ∧ tid ∉ (checkPendingEvents now ps).2.map Prod.fst
    ∧ ∀ now2 (qs : List (Nat × Nat)), tid ∉ qs.map Prod.fst →
        ((checkPendingEvents now2 qs).1.map TimeoutEvent.toolId).count tid = 0 := by
  have ht : toolTimeout < now - t := by omega
  refine ⟨checkPending_emit_count now tid t ps hmem hnodup ht,
    checkPending_removed now tid t ps hmem hnodup ht, ?_⟩
  intro now2 qs hq
  rw [List.count_eq_zero]
  intro hmem2
  obtain ⟨e, he, hei⟩ := List.mem_map.mp hmem2
  exact hq (hei ▸ checkPending_emit_mem qs he)

/-- C6 witness: a two-record pending table, one stale and one fresh. -/
theorem c6_witness :
    (7, 100) ∈ [(7, 100), (9, 950)]
    ∧ (([(7, 100), (9, 950)].map Prod.fst).Nodup : Prop)
    ∧ 100 + toolTimeout < 1000
    ∧ (((checkPendingEvents 1000 [(7, 100), (9, 950)]).1.map TimeoutEvent.toolId).count 7 = 1
      ∧ 7 ∉ (checkPendingEvents 1000 [(7, 100), (9, 950)]).2.map Prod.fst
      ∧ ∀ now2 (qs : List (Nat × Nat)), 7 ∉ qs.map Prod.fst →
          ((checkPendingEvents now2 qs).1.map TimeoutEvent.toolId).count 7 = 0) :=
  ⟨by decide, by decide, by decide,
   c6_pending_timeout 1000 7 100 [(7, 100), (9, 950)] (by decide) (by decide) (by decide)⟩

/-! ### C4 — output-size policy of the action executor -/

theorem joinNL_cons_ne (a b : List Char) (t : List (List Char)) :
    joinNL (a :: b :: t) = a ++ [nlChar] ++ joinNL (b :: t) := by
  simp [joinNL, List.intercalate, List.intersperse, List.append_assoc]

theorem joinNL_single (a : List Char) : joinNL [a] = a := by
  simp [joinNL, List.intercalate]

/-- C4: results over 10000 characters become a header (reporting the true
total length and, for FASTA-like output, the entry count) followed by
exactly the first 10000 characters; results in (5000, 10000] are prefixed
with a length annotation and kept whole; anything else passes through
unchanged. -/
theorem c4_output_policy (r : List Char) :
    (r.length > 10000 →
      formatOutput r = truncHeader r ++ [nlChar] ++ r.take 10000
      ∧ natChars r.length <:+: truncHeader r
      ∧ (fastaLike r = true → natChars (seqCount r) <:+: truncHeader r))
    ∧ (5000 < r.length → r.length ≤ 10000 →
      formatOutput r =
        chars "[Output length: " ++ natChars r.length ++ chars " characters]"
          ++ [nlChar] ++ r)
    ∧ (r.length ≤ 5000 → formatOutput r = r) := by
  refine ⟨?_, ?_, ?_⟩
  · intro h
    have hmax : r.length > MAX_OUTPUT_LENGTH := h
    refine ⟨?_, ?_, ?_⟩
    · by_cases hf : fastaLike r = true
      · simp only [formatOutput, truncHeader, if_pos hmax, hf, if_true]
        simp [joinNL_cons_ne, joinNL_single, List.append_assoc, MAX_OUTPUT_LENGTH]
      · have hf' : fastaLike r = false := Bool.eq_false_iff.mpr hf
        simp only [formatOutput, truncHeader, if_pos hmax, hf', if_false,
          Bool.false_eq_true]
        simp [joinNL_cons_ne, joinNL_single, List.append_assoc, MAX_OUTPUT_LENGTH]
    · by_cases hf : fastaLike r = true
      · unfold truncHeader
        rw [if_pos hf, joinNL_cons_ne]
        exact ⟨chars "[OUTPUT TRUNCATED: ",
          chars " total characters]" ++ [nlChar]
            ++ joinNL [chars "[Contains " ++ natChars (seqCount r)
                ++ chars " sequences/entries]",
              chars "[Showing first 10K characters below]", eqLine],
          by simp [List.append_assoc]⟩
      · have hf' : fastaLike r = false := Bool.eq_false_iff.mpr hf
        unfold truncHeader
        rw [if_neg (by simp [hf']), joinNL_cons_ne]
        exact ⟨chars "[OUTPUT TRUNCATED: ",
          chars " total characters]" ++ [nlChar]
            ++ joinNL [chars "[First 10K characters shown below]", eqLine],
          by simp [List.append_assoc]⟩
    · intro hf
      unfold truncHeader
      rw [if_pos hf, joinNL_cons_ne, joinNL_cons_ne]
      exact ⟨(chars "[OUTPUT TRUNCATED: " ++ natChars r.length
            ++ chars " total characters]") ++ [nlChar] ++ chars "[Contains ",
        chars " sequences/entries]" ++ [nlChar]
          ++ joinNL [chars "[Showing first 10K characters below]", eqLine],
        by simp [List.append_assoc]⟩
  · intro h1 h2
    have hmax : ¬ r.length > MAX_OUTPUT_LENGTH := by
      simp only [MAX_OUTPUT_LENGTH]
      omega
    have hsum : r.length > SUMMARY_THRESHOLD := h1
    simp only [formatOutput, if_neg hmax, if_pos hsum]
  · intro h
    have hmax : ¬ r.length > MAX_OUTPUT_LENGTH := by
      simp only [MAX_OUTPUT_LENGTH]
      omega
    have hsum : ¬ r.length > SUMMARY_THRESHOLD := by
      simp only [SUMMARY_THRESHOLD]
      omega
    simp only [formatOutput, if_neg hmax, if_neg hsum]

/-- A 10001-character result (hard-truncation branch). -/
def bigSample : List Char := List.replicate 10001 'a'

/-- A 5001-character result (annotate-only branch). -/
def midSample : List Char := List.replicate 5001 'b'

/-- A short result (pass-through branch). -/
def smallSample : List Char := chars "ok"

/-- C4 witness: the policy theorem applied to each branch's sample. -/
theorem c4_witness :
    (bigSample.length > 10000
      ∧ (formatOutput bigSample = truncHeader bigSample ++ [nlChar] ++ bigSample.take 10000
        ∧ natChars bigSample.length <:+: truncHeader bigSample
        ∧ (fastaLike bigSample = true →
            natChars (seqCount bigSample) <:+: truncHeader bigSample)))
    ∧ (5000 < midSample.length ∧ midSample.length ≤ 10000
      ∧ formatOutput midSample =
          chars "[Output length: " ++ natChars midSample.length ++ chars " characters]"
            ++ [nlChar] ++ midSample)
    ∧ (smallSample.length ≤ 5000 ∧ formatOutput smallSample = smallSample) :=
  ⟨⟨by norm_num [bigSample], (c4_output_policy bigSample).1 (by norm_num [bigSample])⟩,
   ⟨by norm_num [midSample], by norm_num [midSample],
    (c4_output_policy midSample).2.1 (by norm_num [midSample]) (by norm_num [midSample])⟩,
   ⟨by norm_num [smallSample, chars], (c4_output_policy smallSample).2.2
      (by norm_num [smallSample, chars])⟩⟩

/-! ### Truncation-pass lemmas (shared by C3 and C9) -/

theorem truncFromEnd_none {msgs : List Msg}
    (h : ∀ m ∈ msgs, shouldTrunc m = false) : truncFromEnd msgs = none := by
  induction msgs with
  | nil => rfl
  | cons m ms ih =>
    have hms := ih (fun x hx => h x (List.mem_cons.mpr (Or.inr hx)))
    have hm := h m (List.mem_cons.mpr (Or.inl rfl))
    simp [truncFromEnd, hms, hm]

theorem truncFromEnd_append_some {l r : List Msg} (h : truncFromEnd l = some r) :
    ∀ xs, truncFromEnd (xs ++ l) = some (xs ++ r) := by
  intro xs
  induction xs with
  | nil => simpa using h
  | cons x t ih => simp [truncFromEnd, ih]

theorem truncFromEnd_found {m : Msg} {ys : List Msg} (hm : shouldTrunc m = true)
    (hys : ∀ y ∈ ys, shouldTrunc y = false) :
    truncFromEnd (m :: ys) = some (truncMsg m :: ys) := by
  simp [truncFromEnd, truncFromEnd_none hys, hm]

/-- The recovery pass truncates exactly the last qualifying message. -/
theorem truncateLastObs_last (xs : List Msg) (m : Msg) (ys : List Msg)
    (hm : shouldTrunc m = true) (hys : ∀ y ∈ ys, shouldTrunc y = false) :
    truncateLastObs (xs ++ m :: ys) = xs ++ truncMsg m :: ys := by
  unfold truncateLastObs
  rw [truncFromEnd_append_some (truncFromEnd_found hm hys) xs]

theorem truncMsg_role {m : Msg} (h : shouldTrunc m = true) :
    (truncMsg m).role = m.role := by
  unfold shouldTrunc at h
  cases hm : matchTag openObs closeObs m.content with
  | none => rw [hm] at h; simp at h
  | some obs =>
    rw [hm] at h
    simp only [Bool.and_eq_true, beq_iff_eq] at h
    rw [truncMsg, hm, h.1.1]

theorem truncFromEnd_shape {msgs r : List Msg} (h : truncFromEnd msgs = some r) :
    r.length = msgs.length ∧ r.map Msg.role = msgs.map Msg.role := by
  induction msgs generalizing r with
  | nil => simp [truncFromEnd] at h
  | cons m ms ih =>
    cases hms : truncFromEnd ms with
    | some ms' =>
      have he : truncFromEnd (m :: ms) = some (m :: ms') := by
        simp [truncFromEnd, hms]
      rw [he] at h
      injection h with h2
      subst h2
      obtain ⟨h3, h4⟩ := ih hms
      simp [h3, h4]
    | none =>
      by_cases hst : shouldTrunc m = true
      · have he : truncFromEnd (m :: ms) = some (truncMsg m :: ms) := by
          simp [truncFromEnd, hms, hst]
        rw [he] at h
        injection h with h2
        subst h2
        simp [truncMsg_role hst]
      · have he : truncFromEnd (m :: ms) = none := by
          simp [truncFromEnd, hms, hst]
        rw [he] at h
        cases h

/-! ### C9 — transitions append; the recovery path mutates -/

/-- Message list of a `generate` outcome (`[]` for a re-raised error). -/
def genMessagesOf : Except (List Char) GenOut → List Msg
  | .ok g => g.messages
  | .error _ => []

/-- An earlier observation message whose observation exceeds 2000 chars. -/
def obsBig : Msg := ⟨Role.ai, openObs ++ List.replicate 2001 'z' ++ closeObs⟩

/-- The most recent observation message, with a short observation. -/
def obsSmall : Msg := ⟨Role.ai, chars "<observation>hi</observation>"⟩

/-- The conversation state used for the recovery counterexamples. -/
def msgsC3 : List Msg := [obsBig, obsSmall]

/-- A recoverable first-call failure. -/
def tokenErr : List Char := chars "Error: token limit exceeded"

/-- The reply the retried model call produces. -/
def retryReply : List Char := chars "<think>retrying</think>"

theorem findSub_zero {pat xs : List Char} (h : pat.isPrefixOf xs = true)
    (hne : xs ≠ []) : findSub pat xs = some 0 := by
  cases xs with
  | nil => exact absurd rfl hne
  | cons c cs => rw [findSub_cons, if_pos h]

theorem findSub_replicate {q c : Char} (ps : List Char) (hqc : q ≠ c)
    (ys : List Char) :
    ∀ n, findSub (q :: ps) (List.replicate n c ++ ys)
      = (findSub (q :: ps) ys).map (· + n) := by
  intro n
  induction n with
  | zero => simp
  | succ n ih =>
    rw [List.replicate_succ, List.cons_append, findSub_cons]
    have hpf : (q :: ps).isPrefixOf (c :: (List.replicate n c ++ ys)) = false := by
      rw [Bool.eq_false_iff]
      intro hc
      exact hqc (List.cons_prefix_cons.mp (List.isPrefixOf_iff_prefix.mp hc)).1
    rw [if_neg (by simp [hpf]), ih, Option.map_map]
    congr 1

theorem matchTag_sandwich (op cl Z : List Char) (hop : op ≠ [])
    (hfz : findSub cl (Z ++ cl) = some Z.length) :
    matchTag op cl (op ++ (Z ++ cl)) = some Z := by
  have h1 : findSub op (op ++ (Z ++ cl)) = some 0 := by
    apply findSub_zero
    · exact List.isPrefixOf_iff_prefix.mpr (List.prefix_append _ _)
    · intro hnil
      exact hop (List.append_eq_nil.mp hnil).1
  have hdrop : (op ++ (Z ++ cl)).drop (0 + op.length) = Z ++ cl := by
    simp [List.drop_left]
  simp only [matchTag, matchSpan, h1, hdrop, hfz, List.take_left]
  rfl

theorem obsBig_match :
    matchTag openObs closeObs obsBig.content = some (List.replicate 2001 'z') := by
  have hcl : closeObs = '<' :: chars "/observation>" := rfl
  have hfz : findSub closeObs (List.replicate 2001 'z' ++ closeObs)
      = some (List.replicate 2001 'z').length := by
    rw [hcl, findSub_replicate (chars "/observation>") (by decide) _ 2001,
      findSub_zero (by decide) (by decide)]
    rw [List.length_replicate]
    rfl
  exact matchTag_sandwich openObs closeObs (List.replicate 2001 'z') (by decide) hfz

theorem obsBig_should : shouldTrunc obsBig = true := by
  have hocc : occurs openObs obsBig.content = true :=
    occurs_of_isPrefixOf (List.isPrefixOf_iff_prefix.mpr (List.prefix_append _ _))
  have hrole : (obsBig.role == Role.ai) = true := rfl
  have hlen : decide ((List.replicate 2001 'z').length > 2000) = true := by
    rw [List.length_replicate]
    decide
  unfold shouldTrunc
  rw [obsBig_match]
  show (obsBig.role == Role.ai && occurs openObs obsBig.content
    && decide ((List.replicate 2001 'z').length > 2000)) = true
  rw [hrole, hocc, hlen]
  rfl

theorem obsSmall_notrunc : shouldTrunc obsSmall = false := by decide

/-- The recovery truncation on the C3 state rewrites the earlier message
and keeps the most recent observation message untouched. -/
theorem truncC3 : truncateLastObs msgsC3 = [truncMsg obsBig, obsSmall] := by
  have h := truncateLastObs_last [] obsBig [obsSmall] obsBig_should
    (fun y hy => by
      rcases List.mem_singleton.mp hy with rfl
      exact obsSmall_notrunc)
  exact h

theorem truncMsg_obsBig_ne : truncMsg obsBig ≠ obsBig := by
  intro h
  have e1 : openObs.length = 13 := by decide
  have e2 : (chars "[TRUNCATED DUE TO CONTEXT OVERFLOW - Original: ").length = 47 := by
    decide
  have e3 : (chars (Nat.repr 2001)).length = 4 := by decide
  have e4 : (chars " chars]").length = 7 := by decide
  have e5 : (chars "[...truncated...]").length = 17 := by decide
  have e6 : closeObs.length = 14 := by decide
  have ht : truncMsg obsBig = ⟨Role.ai,
      openObs ++ chars "[TRUNCATED DUE TO CONTEXT OVERFLOW - Original: "
        ++ chars (Nat.repr (List.replicate 2001 'z').length) ++ chars " chars]"
        ++ [Char.ofNat 10] ++ (List.replicate 2001 'z').take 2000 ++ [Char.ofNat 10]
        ++ chars "[...truncated...]" ++ closeObs⟩ := by
    unfold truncMsg
    rw [obsBig_match]
  have hL1 : (truncMsg obsBig).content.length = 2104 := by
    rw [ht]
    simp only [List.length_append, List.length_take, List.length_replicate,
      List.length_cons, List.length_nil, e1, e2, e3, e4, e5, e6]
    omega
  have hL2 : obsBig.content.length = 2028 := by
    show (openObs ++ (List.replicate 2001 'z' ++ closeObs)).length = 2028
    simp only [List.length_append, List.length_replicate, e1, e6]
  have hc := congrArg (fun m => m.content.length) h
  simp only [] at hc
  rw [hL1, hL2] at hc
  omega

theorem generateRoute_messages_append (msgs : List Msg) (c : List Char) :
    ∃ t, (generateRoute msgs c).messages = msgs ++ t := by
  unfold generateRoute
  dsimp only
  split_ifs
  · exact ⟨[⟨Role.ai, pyStrip (fixTags c)⟩], rfl⟩
  · exact ⟨[⟨Role.ai, pyStrip (fixTags c)⟩], rfl⟩
  · exact ⟨[⟨Role.ai, pyStrip (fixTags c)⟩], rfl⟩
  · exact ⟨[⟨Role.ai, pyStrip (fixTags c)⟩, ⟨Role.ai, terminationText⟩], by simp⟩
  · exact ⟨[⟨Role.ai, pyStrip (fixTags c)⟩, ⟨Role.user, correctiveText⟩], by simp⟩

/-- C9 (counterexample): the `generate` transition taken on a recoverable
LLM failure does not merely append — the prior message list is not a prefix
of the resulting one, because an earlier observation message was rewritten
in place. -/
theorem c9_counterexample :
    ¬ (msgsC3 <+: genMessagesOf (generateNode msgsC3 (.err tokenErr) (.ok retryReply))) := by
  intro hp
  have hrec : recoverable tokenErr = true := by decide
  have hnode : generateNode msgsC3 (.err tokenErr) (.ok retryReply)
      = .ok (generateRoute (truncateLastObs msgsC3) retryReply) := by
    simp [generateNode, hrec]
  rw [hnode] at hp
  simp only [genMessagesOf] at hp
  obtain ⟨t, ht⟩ := generateRoute_messages_append (truncateLastObs msgsC3) retryReply
  rw [ht, truncC3] at hp
  simp only [msgsC3, List.cons_append] at hp
  exact truncMsg_obsBig_ne (List.cons_prefix_cons.mp hp).1.symm

/-- C9 (amended): the parse-and-route step of `generate`, the `execute`
node and the self-critique node only append to the message list; the only
exception is the recoverable-LLM-error path, whose truncation pass rewrites
the content of one earlier observation message in place while preserving
the list's length and every message's role (hence every position). -/
theorem c9_transitions_append_only :
    (∀ (msgs : List Msg) (c : List Char), msgs <+: (generateRoute msgs c).messages)
    ∧ (∀ (msgs : List Msg) (r : List Char), msgs <+: executeStep msgs r)
    ∧ (∀ (cc rb : Nat) (msgs : List Msg) (fb : List Char),
        msgs <+: ((selfCriticStep cc rb msgs fb).1).messages)
    ∧ (∀ msgs : List Msg, (truncateLastObs msgs).length = msgs.length
        ∧ (truncateLastObs msgs).map Msg.role = msgs.map Msg.role) := by
  refine ⟨?_, ?_, ?_, ?_⟩
  · intro msgs c
    unfold generateRoute
    dsimp only
    have h1 : msgs <+: msgs ++ [(⟨Role.ai, pyStrip (fixTags c)⟩ : Msg)] :=
      List.prefix_append _ _
    split_ifs <;>
      first
        | exact h1
        | exact h1.trans (List.prefix_append _ _)
  · intro msgs r
    cases h : msgs.getLast? with
    | none =>
      simp only [executeStep, h]
      exact List.prefix_refl _
    | some last =>
      cases h2 : execParse last.content with
      | none =>
        simp only [executeStep, h, h2]
        exact List.prefix_refl _
      | some code =>
        simp only [executeStep, h, h2]
        exact List.prefix_append _ _
  · intro cc rb msgs fb
    unfold selfCriticStep
    split_ifs <;> dsimp only
    · exact List.prefix_append _ _
    · exact List.prefix_refl _
  · intro msgs
    unfold truncateLastObs
    cases h : truncFromEnd msgs with
    | none => exact ⟨rfl, rfl⟩
    | some r => exact truncFromEnd_shape h

/-! ### C3 — recoverable LLM-failure handling in `generate` -/

/-- A second failure that looks like an API-key problem. -/
def apiKeyErr : List Char := chars "Invalid API key configured"

/-- C3 (counterexample): on a recoverable first failure the step runs the
recovery path, but the most recent observation-bearing message (`obsSmall`,
at index 1) is left untouched — no marker, no truncation — while the earlier
message at index 0 is rewritten: the loop skips observation messages whose
observation is within the 2000-character bound. -/
theorem c3_counterexample :
    generateNode msgsC3 (.err tokenErr) (.ok retryReply)
      = .ok (generateRoute (truncateLastObs msgsC3) retryReply)
    ∧ (truncateLastObs msgsC3).get? 1 = some obsSmall
    ∧ (truncateLastObs msgsC3).get? 0 ≠ some obsBig := by
  refine ⟨?_, ?_, ?_⟩
  · simp [generateNode, (by decide : recoverable tokenErr = true)]
  · rw [truncC3]
    rfl
  · rw [truncC3]
    intro h
    have h2 : some (truncMsg obsBig) = some obsBig := h
    injection h2 with h3
    exact truncMsg_obsBig_ne h3

/-- C3 (amended): a recoverable first failure truncates the most recent
observation-bearing message whose observation exceeds 2000 characters
(later observation messages within the bound are skipped), rewrites it with
a marker carrying the original length and the first 2000 characters, and
retries exactly once; a failed retry synthesizes a `<solution>` reply
(auth/endpoint wording vs. context-overflow wording) which routes straight
to `end`; a non-recoverable error is re-raised. -/
theorem c3_recovery_policy (msgs : List Msg) (e e2 retryContent : List Char) :
    (recoverable e = true →
      generateNode msgs (.err e) (.ok retryContent)
        = .ok (generateRoute (truncateLastObs msgs) retryContent)
      ∧ generateNode msgs (.err e) (.err e2)
        = .ok (generateRoute (truncateLastObs msgs)
            (if authErr e2 then authSolutionText else ctxSolutionText)))
    ∧ (recoverable e = false →
      generateNode msgs (.err e) (.ok retryContent) = .error e
      ∧ generateNode msgs (.err e) (.err e2) = .error e)
    ∧ (∀ (xs : List Msg) (m : Msg) (ys : List Msg), shouldTrunc m = true →
        (∀ y ∈ ys, shouldTrunc y = false) →
        truncateLastObs (xs ++ m :: ys) = xs ++ truncMsg m :: ys)
    ∧ (∀ (m : Msg) (obs : List Char), matchTag openObs closeObs m.content = some obs →
        (truncMsg m).content
          = openObs ++ chars "[TRUNCATED DUE TO CONTEXT OVERFLOW - Original: "
            ++ chars (Nat.repr obs.length) ++ chars " chars]" ++ [Char.ofNat 10]
            ++ obs.take 2000 ++ [Char.ofNat 10] ++ chars "[...truncated...]"
            ++ closeObs)
    ∧ (generateRoute msgs authSolutionText).next = NextStep.endState
    ∧ (generateRoute msgs ctxSolutionText).next = NextStep.endState := by
  refine ⟨?_, ?_, ?_, ?_, ?_, ?_⟩
  · intro h
    exact ⟨by simp [generateNode, h], by simp [generateNode, h]⟩
  · intro h
    exact ⟨by simp [generateNode, h], by simp [generateNode, h]⟩
  · exact truncateLastObs_last
  · intro m obs h
    unfold truncMsg
    rw [h]
  · exact generateRoute_end_of_solution msgs authSolutionText (by decide)
  · exact generateRoute_end_of_solution msgs ctxSolutionText (by decide)

/-- C3 witness: the recovery policy applied to the concrete C3 state, a
token-limit first failure and an API-key retry failure. -/
theorem c3_witness :
    recoverable tokenErr = true
    ∧ (generateNode msgsC3 (.err tokenErr) (.ok retryReply)
        = .ok (generateRoute (truncateLastObs msgsC3) retryReply)
      ∧ generateNode msgsC3 (.err tokenErr) (.err apiKeyErr)
        = .ok (generateRoute (truncateLastObs msgsC3)
            (if authErr apiKeyErr then authSolutionText else ctxSolutionText)))
    ∧ shouldTrunc obsBig = true
    ∧ truncateLastObs ([] ++ obsBig :: [obsSmall]) = [] ++ truncMsg obsBig :: [obsSmall]
    ∧ (generateRoute msgsC3 authSolutionText).next = NextStep.endState :=
  ⟨by decide,
   (c3_recovery_policy msgsC3 tokenErr apiKeyErr retryReply).1 (by decide),
   obsBig_should,
   (c3_recovery_policy msgsC3 tokenErr apiKeyErr retryReply).2.2.1 [] obsBig [obsSmall]
     obsBig_should
     (fun y hy => by
       rcases List.mem_singleton.mp hy with rfl
       exact obsSmall_notrunc),
   (c3_recovery_policy msgsC3 tokenErr apiKeyErr retryReply).2.2.2.2.1⟩

/-! ### C5 — forgiving parsing of unterminated tags -/

theorem occurs_append_self (pat xs : List Char) : occurs pat (xs ++ pat) = true := by
  have h := occurs_close_append pat xs []
  simpa using h

theorem findSub_some_le {pat xs : List Char} {i : Nat} (h : findSub pat xs = some i) :
    i ≤ xs.length := by
  induction xs generalizing i with
  | nil =>
    unfold findSub at h
    by_cases hp : pat.isEmpty
    · simp [hp] at h
      simp [h.symm]
    · simp [hp] at h
  | cons c cs ih =>
    rw [findSub_cons] at h
    by_cases hp : pat.isPrefixOf (c :: cs) = true
    · rw [if_pos hp] at h
      injection h with h2
      simp [h2.symm]
    · rw [if_neg hp] at h
      obtain ⟨j, hj, rfl⟩ := Option.map_eq_some'.mp h
      have := ih hj
      simp
      omega

theorem fixTag1_unterminated {msg : List Char} (hE : occurs openE msg = true)
    (hCE : occurs closeE msg = false) : fixTag1 msg = msg ++ closeE := by
  simp [fixTag1, hE, hCE]

theorem fixTag1_of_closed {x : List Char} (h : occurs closeE x = true) :
    fixTag1 x = x := by
  simp [fixTag1, h]

theorem fixTags_close_exec {msg : List Char} (hE : occurs openE msg = true)
    (hCE : occurs closeE msg = false) : fixTags msg = fixTags (msg ++ closeE) := by
  unfold fixTags
  rw [fixTag1_unterminated hE hCE, fixTag1_of_closed (occurs_append_self closeE msg)]

theorem generateRoute_congr {x y : List Char} (h : fixTags x = fixTags y)
    (msgs : List Msg) : generateRoute msgs x = generateRoute msgs y := by
  unfold generateRoute
  rw [h]

theorem execParse_close {msg : List Char} (hE : occurs openE msg = true)
    (hCE : occurs closeE msg = false) :
    execParse msg = execParse (msg ++ closeE) := by
  unfold execParse
  rw [hE, hCE, occurs_append_left hE closeE, occurs_append_self closeE msg]
  rfl

theorem matchTag_isSome_of_base (op cl base ext : List Char)
    (hop : occurs op base = true) :
    (matchTag op cl ((base ++ cl) ++ ext)).isSome = true := by
  rw [List.append_assoc]
  have hf : findSub op (base ++ (cl ++ ext)) = findSub op base :=
    findSub_append_of_occurs hop _
  obtain ⟨i, hi⟩ := Option.isSome_iff_exists.mp hop
  have hbound : i + op.length ≤ base.length := by
    have hpre := findSub_some_drop hi
    have h1 := hpre.length_le
    have h2 := findSub_some_le hi
    simp at h1
    omega
  have hdrop : (base ++ (cl ++ ext)).drop (i + op.length)
      = base.drop (i + op.length) ++ (cl ++ ext) := by
    rw [List.drop_append_eq_append_drop, Nat.sub_eq_zero_of_le hbound, List.drop_zero]
  have hocc2 : occurs cl (base.drop (i + op.length) ++ (cl ++ ext)) = true :=
    occurs_close_append cl _ ext
  obtain ⟨j, hj⟩ := Option.isSome_iff_exists.mp hocc2
  simp only [matchTag, matchSpan, hf, hi, hdrop, hj]
  rfl

theorem fixTag23_ext (x : List Char) : ∃ ext, fixTag3 (fixTag2 x) = x ++ ext := by
  unfold fixTag2 fixTag3
  split_ifs
  · exact ⟨closeS ++ closeT, by simp⟩
  · exact ⟨closeS, rfl⟩
  · exact ⟨closeT, rfl⟩
  · exact ⟨[], by simp⟩

theorem fixTag3_ext (x : List Char) : ∃ ext, fixTag3 x = x ++ ext := by
  unfold fixTag3
  split_ifs
  · exact ⟨closeT, rfl⟩
  · exact ⟨[], by simp⟩

theorem fixTags_close_sol {msg : List Char} (hS : occurs openS msg = true)
    (hCS : occurs closeS msg = false)
    (himp : occurs openE msg = true → occurs closeE msg = true) :
    fixTags msg = fixTags (msg ++ closeS) := by
  have hfix1 : fixTag1 msg = msg := by
    unfold fixTag1
    by_cases hE : occurs openE msg = true
    · simp [hE, himp hE]
    · simp [Bool.eq_false_iff.mpr hE]
  have hEappend : occurs openE (msg ++ closeS) = occurs openE msg :=
    occurs_append_stable openE closeS (by decide)
      (fun j hjl hj0 =>
        (by decide : ∀ j < openE.length, 0 < j →
          (openE.drop j).isPrefixOf closeS = false) j hjl hj0) msg
  have hCEappend : occurs closeE (msg ++ closeS) = occurs closeE msg :=
    occurs_append_stable closeE closeS (by decide)
      (fun j hjl hj0 =>
        (by decide : ∀ j < closeE.length, 0 < j →
          (closeE.drop j).isPrefixOf closeS = false) j hjl hj0) msg
  have hfix1' : fixTag1 (msg ++ closeS) = msg ++ closeS := by
    unfold fixTag1
    rw [hEappend, hCEappend]
    by_cases hE : occurs openE msg = true
    · simp [hE, himp hE]
    · simp [Bool.eq_false_iff.mpr hE]
  have h2 : fixTag2 msg = msg ++ closeS := by
    simp [fixTag2, hS, hCS]
  have h2' : fixTag2 (msg ++ closeS) = msg ++ closeS := by
    simp [fixTag2, occurs_append_self closeS msg]
  unfold fixTags
  rw [hfix1, hfix1', h2, h2']

/-- C5 (counterexample): for a message in which both an `<execute>` and a
`<solution>` opening tag are unterminated, parsing the raw text is not
the same as parsing the text with `</solution>` appended — the repair
appends the synthesized closers in the fixed order execute-then-solution,
so the appended message content (and the extracted blocks) differ. -/
theorem c5_counterexample :
    generateRoute [] (chars "<execute>a<solution>b")
      ≠ generateRoute [] (chars "<execute>a<solution>b" ++ closeS) := by
  decide

/-- C5 (amended): for a message with an unterminated `<execute>` tag, the
generate-step parse/route and the execute-step extraction coincide with
those of the message with `</execute>` appended, and extraction succeeds;
for a message with an unterminated `<solution>` tag and no unterminated
`<execute>` tag, the generate-step parse/route coincides with that of the
message with `</solution>` appended, and the solution match succeeds.
Parsing is total — no input raises. -/
theorem c5_forgiving_tags (msgs : List Msg) (msg : List Char) :
    (occurs openE msg = true → occurs closeE msg = false →
      generateRoute msgs msg = generateRoute msgs (msg ++ closeE)
      ∧ execParse msg = execParse (msg ++ closeE)
      ∧ (matchTag openE closeE (fixTags msg)).isSome = true
      ∧ (execParse msg).isSome = true)
    ∧ (occurs openS msg = true → occurs closeS msg = false →
      (occurs openE msg = true → occurs closeE msg = true) →
      generateRoute msgs msg = generateRoute msgs (msg ++ closeS)
      ∧ (matchTag openS closeS (fixTags msg)).isSome = true) := by
  constructor
  · intro hE hCE
    refine ⟨generateRoute_congr (fixTags_close_exec hE hCE) msgs,
      execParse_close hE hCE, ?_, ?_⟩
    · obtain ⟨ext, hext⟩ := fixTag23_ext (msg ++ closeE)
      have hfix : fixTags msg = (msg ++ closeE) ++ ext := by
        unfold fixTags
        rw [fixTag1_unterminated hE hCE]
        exact hext
      rw [hfix]
      exact matchTag_isSome_of_base openE closeE msg ext hE
    · have h := matchTag_isSome_of_base openE closeE msg [] hE
      rw [List.append_nil] at h
      unfold execParse
      rw [hE, hCE]
      simpa using h
  · intro hS hCS himp
    refine ⟨generateRoute_congr (fixTags_close_sol hS hCS himp) msgs, ?_⟩
    have hfix1 : fixTag1 msg = msg := by
      unfold fixTag1
      by_cases hE : occurs openE msg = true
      · simp [hE, himp hE]
      · simp [Bool.eq_false_iff.mpr hE]
    have h2 : fixTag2 msg = msg ++ closeS := by
      simp [fixTag2, hS, hCS]
    obtain ⟨ext, hext⟩ := fixTag3_ext (msg ++ closeS)
    have hfix : fixTags msg = (msg ++ closeS) ++ ext := by
      unfold fixTags
      rw [hfix1, h2]
      exact hext
    rw [hfix]
    exact matchTag_isSome_of_base openS closeS msg ext hS

/-- The unterminated-execute sample reply. -/
def unterminatedExec : List Char := chars "abc<execute>print(1)"

/-- The unterminated-solution sample reply. -/
def unterminatedSol : List Char := chars "abc<solution>ans"

/-- C5 witness: the amended theorem applied to both unterminated samples. -/
theorem c5_witness :
    (occurs openE unterminatedExec = true ∧ occurs closeE unterminatedExec = false
      ∧ (generateRoute [] unterminatedExec
          = generateRoute [] (unterminatedExec ++ closeE)
        ∧ execParse unterminatedExec = execParse (unterminatedExec ++ closeE)
        ∧ (matchTag openE closeE (fixTags unterminatedExec)).isSome = true
        ∧ (execParse unterminatedExec).isSome = true))
    ∧ (occurs openS unterminatedSol = true ∧ occurs closeS unterminatedSol = false
      ∧ (generateRoute [] unterminatedSol
          = generateRoute [] (unterminatedSol ++ closeS)
        ∧ (matchTag openS closeS (fixTags unterminatedSol)).isSome = true)) :=
  ⟨⟨by decide, by decide,
    (c5_forgiving_tags [] unterminatedExec).1 (by decide) (by decide)⟩,
   ⟨by decide, by decide,
    (c5_forgiving_tags [] unterminatedSol).2 (by decide) (by decide) (by decide)⟩⟩

/-! ### C7 — unmatched chunks are never dropped? -/

/-- C7 (counterexample): the orchestrator's chunk parser does not emit an
unmatched chunk as a `reasoning` event — `"qqq"` becomes a `"message"`
event, and a separator-like chunk `"==="` yields an empty event list. -/
theorem c7_counterexample :
    parseChunk (chars "===") = []
    ∧ (parseChunk (chars "qqq")).map OEvent.etype = [chars "message"]
    ∧ chars "message" ≠ chars "reasoning" := by
  decide

/-- C7 (amended): the a1 classifier never returns an empty list and falls
back to a single verbatim `reasoning` event; the orchestrator's chunk
parser, on a chunk matching no classification rule, emits the stripped
chunk verbatim as a single `"message"`-typed event — except chunks that
strip to empty or start with `'='`, which yield an empty list.  Parsing is
total and never raises. -/
theorem c7_unmatched_chunks (m c : List Char)
    (h0 : occurs aiHeaderFull (pyStrip c) = false)
    (h1 : (occurs openObs (pyStrip c) && occurs closeObs (pyStrip c)) = false)
    (h2 : (occurs openE (pyStrip c) && occurs closeE (pyStrip c)) = false)
    (h3 : (occurs openS (pyStrip c) && occurs closeS (pyStrip c)) = false)
    (h4 : lowerHas protocolKeywords (pyStrip c) = false)
    (h5 : extractTodos (pyStrip c) = [])
    (h6 : occurs aiMsgPat (pyStrip c) = false)
    (h7 : occurs humanMsgPat (pyStrip c) = false)
    (h8 : lowerHas reasoningKeywords (pyStrip c) = false) :
    classifyMulti m ≠ []
    ∧ (classifyCore m = [] →
        classifyMulti m = [{ etype := chars "reasoning", content := m, fullMessage := m }])
    ∧ parseChunk c =
        (if (pyStrip c).isEmpty = true ∨ (pyStrip c).head? = some '=' then []
         else [{ etype := chars "message", content := pyStrip c }]) := by
  refine ⟨classifyMulti_ne_nil m, ?_, ?_⟩
  · intro h
    simp [classifyMulti, h]
  · unfold parseChunk
    show parseChunkF (c.length + 1) c = _
    rw [parseChunkF]
    simp only [h0, h1, h2, h3, h4, h5, h6, h7, h8, Bool.false_eq_true, if_false]
    by_cases hempty : (pyStrip c).isEmpty = true
    · simp [hempty]
    · by_cases hhead : (pyStrip c).head? = some '='
      · simp [hempty, hhead]
      · simp [hempty, hhead]

/-- C7 witness: the amended theorem at `"zzz"` (classifier fallback),
`"qqq"` (unmatched message chunk) and `"==="` (separator chunk). -/
theorem c7_witness :
    (classifyMulti (chars "zzz") ≠ []
      ∧ classifyCore (chars "zzz") = []
      ∧ classifyMulti (chars "zzz")
          = [{ etype := chars "reasoning", content := chars "zzz",
               fullMessage := chars "zzz" }])
    ∧ parseChunk (chars "qqq")
        = (if (pyStrip (chars "qqq")).isEmpty = true
              ∨ (pyStrip (chars "qqq")).head? = some '=' then []
           else [{ etype := chars "message", content := pyStrip (chars "qqq") }])
    ∧ parseChunk (chars "===")
        = (if (pyStrip (chars "===")).isEmpty = true
              ∨ (pyStrip (chars "===")).head? = some '=' then []
           else [{ etype := chars "message", content := pyStrip (chars "===") }]) :=
  ⟨⟨(c7_unmatched_chunks (chars "zzz") (chars "qqq") (by decide) (by decide)
      (by decide) (by decide) (by decide) (by decide) (by decide) (by decide)
      (by decide)).1,
    by decide,
    (c7_unmatched_chunks (chars "zzz") (chars "qqq") (by decide) (by decide)
      (by decide) (by decide) (by decide) (by decide) (by decide) (by decide)
      (by decide)).2.1 (by decide)⟩,
   (c7_unmatched_chunks (chars "zzz") (chars "qqq") (by decide) (by decide)
      (by decide) (by decide) (by decide) (by decide) (by decide) (by decide)
      (by decide)).2.2,
   (c7_unmatched_chunks (chars "zzz") (chars "===") (by decide) (by decide)
      (by decide) (by decide) (by decide) (by decide) (by decide) (by decide)
      (by decide)).2.2⟩

/-! ### C8 — planning precedes tool_call in multi-classification -/

/-- The planning event built for a message with parsable checklist lines. -/
def planningEventOf (content : List Char) : AEvent :=
  { etype := chars "planning", content := planningSpanOf content,
    fullMessage := content, planSteps := planStepsOf (planningSpanOf content) }

/-- The tool-call event built for a message with a complete execute block. -/
def toolCallEventOf (content code : List Char) : AEvent :=
  { etype := chars "tool_call", subtype := codeTypeOf code, content := code,
    fullMessage := content }

theorem matchTag_isSome_occurs {op cl s : List Char}
    (h : (matchTag op cl s).isSome = true) : occurs op s = true := by
  unfold occurs
  cases hf : findSub op s with
  | none =>
    exfalso
    unfold matchTag matchSpan at h
    rw [hf] at h
    simp at h
  | some i => simp [hf]

theorem planningEvents_of_steps {content : List Char}
    (hmark : hasChecklistMarker content = true)
    (hsteps : planStepsOf (planningSpanOf content) ≠ []) :
    planningEventsOf content = [planningEventOf content] := by
  simp [planningEventsOf, planningEventOf, hmark, List.isEmpty_iff, hsteps]

theorem execEvents_of_match {content code : List Char}
    (h : matchTag openE closeE content = some code) :
    execEventsOf content = [toolCallEventOf content code] := by
  have hocc : occurs openE content = true := matchTag_isSome_occurs (by rw [h]; rfl)
  simp [execEventsOf, toolCallEventOf, hocc, h]

theorem reasoningEvents_types {content : List Char} :
    ∀ e ∈ reasoningEventsOf content, e.etype = chars "reasoning" := by
  intro e he
  simp only [reasoningEventsOf] at he
  split_ifs at he
  · simp at he
  · simp at he
  · simp at he
    subst he
    rfl
  · simp at he

/-- The C8 counterexample message: checklist markers are present and are
followed by a complete execute block, but no line matches the numbered
`N. [s] text` pattern. -/
def markerNoNumber : List Char :=
  chars "[ ] step one" ++ [nlChar] ++ chars "<execute>code</execute>"

/-- C8 (counterexample): for a message containing checklist markers
followed by an `<execute>` block, the classification contains a tool_call
event but no planning event — the planning extractor only fires on
numbered `N. [s]` lines. -/
theorem c8_counterexample :
    hasChecklistMarker markerNoNumber = true
    ∧ (matchTag openE closeE markerNoNumber).isSome = true
    ∧ ((classifyMulti markerNoNumber).filter
        (fun e => e.etype == chars "planning")).length = 0
    ∧ ((classifyMulti markerNoNumber).filter
        (fun e => e.etype == chars "tool_call")).length = 1 := by
  decide

/-- C8 (amended): for every message whose checklist markers include at
least one parsable numbered step line and which carries a complete execute
block, the classification contains a planning event at a strictly earlier
index than the tool_call event (events are appended in the fixed category
order planning, reasoning, tool_call, tool_output, final_result, thinking,
which matches textual order for a plan-reasoning-code message). -/
theorem c8_planning_before_tool_call (content : List Char)
    (hmark : hasChecklistMarker content = true)
    (hsteps : planStepsOf (planningSpanOf content) ≠ [])
    (hexec : (matchTag openE closeE content).isSome = true) :
    ∃ i j, i < j
      ∧ (classifyMulti content).findIdx? (fun e => e.etype == chars "planning") = some i
      ∧ (classifyMulti content).findIdx? (fun e => e.etype == chars "tool_call") = some j := by
  obtain ⟨code, hcode⟩ := Option.isSome_iff_exists.mp hexec
  have hplan := planningEvents_of_steps hmark hsteps
  have hexecl := execEvents_of_match hcode
  have hcore_ne : classifyCore content ≠ [] := by
    unfold classifyCore
    rw [hplan]
    simp
  have hmulti : classifyMulti content = classifyCore content := by
    unfold classifyMulti
    rw [if_neg (by simp [List.isEmpty_iff, hcore_ne])]
  refine ⟨0, 1 + (reasoningEventsOf content).length, by omega, ?_, ?_⟩
  · rw [hmulti]
    unfold classifyCore
    rw [hplan]
    have hb0 : ((planningEventOf content).etype == chars "planning") = true := by
      show (chars "planning" == chars "planning") = true
      decide
    simp only [List.cons_append, List.nil_append, List.findIdx?_cons, hb0, if_true]
  · rw [hmulti]
    unfold classifyCore
    rw [hplan, hexecl]
    simp only [List.cons_append, List.nil_append, List.append_assoc]
    rw [List.findIdx?_cons]
    have hb1 : ((planningEventOf content).etype == chars "tool_call") = false := by
      show (chars "planning" == chars "tool_call") = false
      decide
    rw [hb1]
    simp only [Bool.false_eq_true, if_false, List.findIdx?_succ]
    rw [List.findIdx?_append]
    have hnone : List.findIdx? (fun e => e.etype == chars "tool_call")
        (reasoningEventsOf content) = none := by
      rw [List.findIdx?_eq_none_iff]
      intro e he
      rw [reasoningEvents_types e he]
      decide
    rw [hnone, List.findIdx?_cons]
    have hb2 : ((toolCallEventOf content code).etype == chars "tool_call") = true := by
      show (chars "tool_call" == chars "tool_call") = true
      decide
    rw [hb2]
    simp [Nat.add_comm]

/-- A message with two numbered checklist lines and then an execute block. -/
def numberedPlanMsg : List Char :=
  chars "1. [ ] alpha" ++ [nlChar] ++ chars "2. [ ] beta" ++ [nlChar]
    ++ chars "<execute>code</execute>"

/-- C8 witness: the amended theorem on the numbered-plan message. -/
theorem c8_witness :
    hasChecklistMarker numberedPlanMsg = true
    ∧ planStepsOf (planningSpanOf numberedPlanMsg) ≠ []
    ∧ (matchTag openE closeE numberedPlanMsg).isSome = true
    ∧ (∃ i j, i < j
      ∧ (classifyMulti numberedPlanMsg).findIdx?
          (fun e => e.etype == chars "planning") = some i
      ∧ (classifyMulti numberedPlanMsg).findIdx?
          (fun e => e.etype == chars "tool_call") = some j) :=
  ⟨by decide, by decide, by decide,
   c8_planning_before_tool_call numberedPlanMsg (by decide) (by decide) (by decide)⟩

end Mandrake
